import Mathlib

/-!
Verification of the address formatter in
`src/WxO/Tools/format_address/format_address_tool.py`.

The single function `format_address` takes five string arguments
(defaulting to `""`), builds a list of output lines and joins them with
newlines, returning `"No address provided."` when no line was produced.
We embed it shallowly: Python strings become Lean `String`, Python
truthiness `if s:` becomes `s ≠ ""`, `str.strip()` becomes `pyStrip`,
and `", ".join(xs)` becomes `pyJoin ", " xs`.
-/

namespace WxO

/-- Whitespace characters removed by Python's `str.strip()`.
We model the ASCII whitespace set (space, tab, newline, carriage
return, vertical tab, form feed); Python additionally strips other
Unicode whitespace code points, which behave identically for every
property proved here. -/
def pyIsSpace (c : Char) : Bool :=
  c = ' ' || c = '\t' || c = '\n' || c = '\r' || c = '\x0b' || c = '\x0c'

/-- Remove leading and trailing whitespace from a character list:
drop the whitespace prefix, then drop the whitespace suffix (by
reversing, dropping a prefix, and reversing back). -/
def stripList (l : List Char) : List Char :=
  ((l.dropWhile pyIsSpace).reverse.dropWhile pyIsSpace).reverse

/-- Python's `s.strip()` on strings. -/
def pyStrip (s : String) : String :=
  ⟨stripList s.data⟩

/-- Python's `sep.join(xs)`: the elements of `xs` concatenated with
`sep` between consecutive elements («""» on the empty list). -/
def pyJoin (sep : String) : List String → String
  | [] => ""
  | [x] => x
  | x :: y :: xs => x ++ sep ++ pyJoin sep (y :: xs)

/-- The `line2` list built by `format_address`: for each of `city`,
`state`, `zip_code`, the Python code runs `if field:` (truthiness of
the *untrimmed* value) and appends `field.strip()`. -/
def lineBParts (city state zip_code : String) : List String :=
  (if city ≠ "" then [pyStrip city] else []) ++
  (if state ≠ "" then [pyStrip state] else []) ++
  (if zip_code ≠ "" then [pyStrip zip_code] else [])

/-- The `parts` list built by `format_address`: the stripped street
(if `street` is truthy), then `", ".join(line2)` (if `line2` is
non-empty), then the stripped country (if `country` is truthy). -/
def addressParts (street city state zip_code country : String) : List String :=
  (if street ≠ "" then [pyStrip street] else []) ++
  (if lineBParts city state zip_code ≠ [] then
    [pyJoin ", " (lineBParts city state zip_code)] else []) ++
  (if country ≠ "" then [pyStrip country] else [])

/-- `format_address` from
`src/WxO/Tools/format_address/format_address_tool.py`:
`"\n".join(parts) if parts else "No address provided."`. -/
def format_address (street city state zip_code country : String) : String :=
  if addressParts street city state zip_code country ≠ [] then
    pyJoin "\n" (addressParts street city state zip_code country)
  else "No address provided."

/-- The non-empty trimmed values among city, state, postalCode, in
that order — the elements of line B in the spec's algorithm. -/
def specBVals (city state postalCode : String) : List String :=
  (if pyStrip city ≠ "" then [pyStrip city] else []) ++
  (if pyStrip state ≠ "" then [pyStrip state] else []) ++
  (if pyStrip postalCode ≠ "" then [pyStrip postalCode] else [])

/-- The ordered sequence of output lines of the spec's algorithm
(line A, line B, line C, each included under the spec's condition on
the trimmed values). -/
def specLines (street city state postalCode country : String) : List String :=
  (if pyStrip street ≠ "" then [pyStrip street] else []) ++
  (if specBVals city state postalCode ≠ [] then
    [pyJoin ", " (specBVals city state postalCode)] else []) ++
  (if pyStrip country ≠ "" then [pyStrip country] else [])

/-- The algorithm of spec section 4.1, rendered from the spec's words
(for comparison with `format_address`): step 1 trims every field, and
lines A, B, C are then built from the trimmed values — line A is the
trimmed street if non-empty, line B joins the non-empty *trimmed*
values among city, state, postalCode with `", "` and is included if
that list is non-empty, line C is the trimmed country if non-empty;
if no line was produced the result is `"No address provided."`,
otherwise the lines joined with a newline. -/
def spec_format (street city state postalCode country : String) : String :=
  if specLines street city state postalCode country = [] then
    "No address provided."
  else pyJoin "\n" (specLines street city state postalCode country)

/-- A field value is "regular" when it is either empty or still
non-empty after trimming — i.e. it is not a whitespace-only non-empty
string. On such fields the Python truthiness test (`if field:`) and
the trimmed-value test of the spec agree. -/
def okField (v : String) : Prop :=
  v = "" ∨ pyStrip v ≠ ""

instance (v : String) : Decidable (okField v) := by
  unfold okField; infer_instance

/-- A string made only of whitespace characters (possibly empty). -/
def wsOnly (w : String) : Prop :=
  ∀ ch ∈ w.data, pyIsSpace ch = true

instance (w : String) : Decidable (wsOnly w) := by
  unfold wsOnly; infer_instance

/-- Field relation for the trimming-idempotence claim: `w` is `v`
itself, or `v` is a non-empty already-trimmed value and `w` is `v`
surrounded by extra whitespace. -/
def padsTo (v w : String) : Prop :=
  w = v ∨
    (v ≠ "" ∧ pyStrip v = v ∧
      ∃ w1 w2, wsOnly w1 ∧ wsOnly w2 ∧ w = w1 ++ v ++ w2)

/-- Number of newline characters in a string; a string with
`countNewlines s = n` has `n + 1` newline-separated segments. -/
def countNewlines (s : String) : Nat :=
  s.data.count '\n'

/-- Everything before the first newline of `s` (all of `s` when it has
no newline): the first newline-separated segment. -/
def firstLine (s : String) : String :=
  ⟨s.data.takeWhile (fun ch => ch != '\n')⟩

end WxO

namespace WxO

theorem dropWhile_ws_all {p : Char → Bool} {a : List Char}
    (h : ∀ ch ∈ a, p ch = true) (l : List Char) :
    List.dropWhile p (a ++ l) = List.dropWhile p l := by
  induction a with
  | nil => rfl
  | cons x xs ih =>
      have hx : p x = true := h x (List.mem_cons_self x xs)
      have hxs : ∀ ch ∈ xs, p ch = true := fun ch hc => h ch (List.mem_cons_of_mem x hc)
      simp [List.dropWhile_cons, hx, ih hxs]

theorem stripList_leading_ws {a : List Char}
    (h : ∀ ch ∈ a, pyIsSpace ch = true) (l : List Char) :
    stripList (a ++ l) = stripList l := by
  unfold stripList
  rw [dropWhile_ws_all h]

theorem stripList_trailing_ws {b : List Char}
    (h : ∀ ch ∈ b, pyIsSpace ch = true) (l : List Char) :
    stripList (l ++ b) = stripList l := by
  unfold stripList
  rw [List.dropWhile_append]
  by_cases hl : (List.dropWhile pyIsSpace l).isEmpty = true
  · have hb : List.dropWhile pyIsSpace b = [] :=
      List.dropWhile_eq_nil_iff.mpr h
    rw [if_pos hl, hb]
    rw [List.isEmpty_iff] at hl
    rw [hl]
  · rw [if_neg hl, List.reverse_append]
    have hrev : ∀ ch ∈ b.reverse, pyIsSpace ch = true := by
      intro ch hc
      exact h ch (List.mem_reverse.mp hc)
    rw [dropWhile_ws_all hrev]

theorem pyStrip_pad {w1 w2 : String} (v : String)
    (h1 : wsOnly w1) (h2 : wsOnly w2) :
    pyStrip (w1 ++ v ++ w2) = pyStrip v := by
  unfold pyStrip
  have hdata : (w1 ++ v ++ w2).data = w1.data ++ (v.data ++ w2.data) := by
    rw [String.data_append, String.data_append, List.append_assoc]
  rw [hdata, stripList_leading_ws h1, stripList_trailing_ws h2]

theorem string_eq_empty_iff_data (s : String) : s = "" ↔ s.data = [] := by
  constructor
  · intro h; rw [h]
  · intro h
    cases s with
    | mk data => cases h; rfl

/-- The contribution of one conditionally-included field depends only
on its stripped value and its emptiness. -/
theorem condPart_congr {a b : String}
    (hs : pyStrip a = pyStrip b) (he : a = "" ↔ b = "") :
    (if a ≠ "" then [pyStrip a] else []) =
    (if b ≠ "" then [pyStrip b] else []) := by
  by_cases ha : a = ""
  · have hb : b = "" := he.mp ha
    simp [ha, hb]
  · have hb : b ≠ "" := fun h => ha (he.mpr h)
    simp [ha, hb, hs]

theorem lineBParts_congr {c c' s s' z z' : String}
    (hc : pyStrip c = pyStrip c') (hce : c = "" ↔ c' = "")
    (hs : pyStrip s = pyStrip s') (hse : s = "" ↔ s' = "")
    (hz : pyStrip z = pyStrip z') (hze : z = "" ↔ z' = "") :
    lineBParts c s z = lineBParts c' s' z' := by
  unfold lineBParts
  rw [condPart_congr hc hce, condPart_congr hs hse, condPart_congr hz hze]

theorem format_address_congr {s s' c c' st st' z z' k k' : String}
    (h1 : pyStrip s = pyStrip s') (h1e : s = "" ↔ s' = "")
    (h2 : pyStrip c = pyStrip c') (h2e : c = "" ↔ c' = "")
    (h3 : pyStrip st = pyStrip st') (h3e : st = "" ↔ st' = "")
    (h4 : pyStrip z = pyStrip z') (h4e : z = "" ↔ z' = "")
    (h5 : pyStrip k = pyStrip k') (h5e : k = "" ↔ k' = "") :
    format_address s c st z k = format_address s' c' st' z' k' := by
  unfold format_address addressParts
  rw [condPart_congr h1 h1e, condPart_congr h5 h5e,
    lineBParts_congr h2 h2e h3 h3e h4 h4e]

/-- C2: with all five fields empty (the Python defaults model absence
as `""`), `format_address` returns exactly `"No address provided."`. -/
theorem C2_all_empty :
    format_address "" "" "" "" "" = "No address provided." := by
  decide

/-- C7: for street="", city="Paris", state="", zip_code="75001",
country="", `format_address` returns the single line "Paris, 75001". -/
theorem C7_paris :
    format_address "" "Paris" "" "75001" "" = "Paris, 75001" := by
  decide

/-- On a regular field (empty, or non-empty after trimming) the
Python truthiness test agrees with the spec's trimmed-value test. -/
theorem okField_part_eq {v : String} (h : okField v) :
    (if v ≠ "" then [pyStrip v] else []) =
    (if pyStrip v ≠ "" then [pyStrip v] else []) := by
  rcases h with h | h
  · subst h; decide
  · have hv : v ≠ "" := by
      intro he
      rw [he] at h
      exact h rfl
    rw [if_pos hv, if_pos h]

theorem lineBParts_eq_specBVals {c s z : String}
    (hc : okField c) (hs : okField s) (hz : okField z) :
    lineBParts c s z = specBVals c s z := by
  unfold lineBParts specBVals
  rw [okField_part_eq hc, okField_part_eq hs, okField_part_eq hz]

theorem addressParts_eq_specLines {s c st z k : String}
    (h1 : okField s) (h2 : okField c) (h3 : okField st)
    (h4 : okField z) (h5 : okField k) :
    addressParts s c st z k = specLines s c st z k := by
  unfold addressParts specLines
  rw [okField_part_eq h1, okField_part_eq h5,
    lineBParts_eq_specBVals h2 h3 h4]

/-- C1 counterexample: at street="", city=" " (a single space),
state="A", zip_code="", country="", the code keeps the whitespace-only
city as a truthy field and emits its stripped (empty) value into line
B, producing ", A", while the spec's algorithm drops it and produces
"A". -/
theorem C1_counterexample :
    format_address "" " " "A" "" "" = ", A" ∧
    spec_format "" " " "A" "" "" = "A" ∧
    format_address "" " " "A" "" "" ≠ spec_format "" " " "A" "" "" := by
  refine ⟨by decide, by decide, by decide⟩

/-- C1 (amended): `format_address` returns exactly the result of the
spec's algorithm on every input in which no field is a whitespace-only
non-empty string, i.e. every field is either empty or still non-empty
after trimming. -/
theorem C1_matches_spec {s c st z k : String}
    (h1 : okField s) (h2 : okField c) (h3 : okField st)
    (h4 : okField z) (h5 : okField k) :
    format_address s c st z k = spec_format s c st z k := by
  unfold format_address spec_format
  rw [addressParts_eq_specLines h1 h2 h3 h4 h5]
  by_cases hP : specLines s c st z k = []
  · rw [if_neg (fun h => h hP), if_pos hP]
  · rw [if_pos hP, if_neg hP]

theorem C1_matches_spec_witness :
    format_address " 123 Main St " "Springfield" "IL" "62704" "USA" =
      spec_format " 123 Main St " "Springfield" "IL" "62704" "USA" :=
  C1_matches_spec (by decide) (by decide) (by decide) (by decide) (by decide)

/-- C9: `format_address` is deterministic — two calls on equal
argument lists return equal results. -/
theorem C9_deterministic {s c st z k s' c' st' z' k' : String}
    (h1 : s = s') (h2 : c = c') (h3 : st = st')
    (h4 : z = z') (h5 : k = k') :
    format_address s c st z k = format_address s' c' st' z' k' := by
  rw [h1, h2, h3, h4, h5]

theorem C9_deterministic_witness :
    format_address "a" "b" "c" "d" "e" = format_address "a" "b" "c" "d" "e" :=
  C9_deterministic rfl rfl rfl rfl rfl

/-- C8: `format_address` cannot fail — on every combination of the
five text inputs it returns a defined string result (the embedding is
a total function; no operation in the source can raise). -/
theorem C8_total (s c st z k : String) :
    ∃ r : String, format_address s c st z k = r :=
  ⟨format_address s c st z k, rfl⟩

theorem padsTo_strip_eq {v w : String} (h : padsTo v w) :
    pyStrip w = pyStrip v ∧ (w = "" ↔ v = "") := by
  rcases h with h | ⟨hv, _, w1, w2, hw1, hw2, heq⟩
  · rw [h]
    exact ⟨rfl, Iff.rfl⟩
  · have hwne : w ≠ "" := by
      intro hwe
      rw [heq] at hwe
      rw [string_eq_empty_iff_data, String.data_append, String.data_append,
        List.append_eq_nil] at hwe
      exact hv ((string_eq_empty_iff_data v).mpr (List.append_eq_nil.mp hwe.1).2)
    constructor
    · rw [heq, pyStrip_pad v hw1 hw2]
    · exact ⟨fun hwe => absurd hwe hwne, fun hve => absurd hve hv⟩

/-- C5 counterexample: the empty string is already trimmed, and " "
is the same value with extra surrounding whitespace, yet the two
produce different outputs ("" versus "No address provided."). -/
theorem C5_counterexample :
    pyStrip " " = "" ∧
    format_address " " "" "" "" "" = "" ∧
    format_address "" "" "" "" "" = "No address provided." ∧
    format_address " " "" "" "" "" ≠ format_address "" "" "" "" "" := by
  refine ⟨by decide, by decide, by decide, by decide⟩

/-- C5 (amended): for every field position, passing an already-trimmed
*non-empty* value yields the same output as passing the same value
with extra surrounding whitespace (each field independently either
unchanged or padded around a trimmed non-empty value). -/
theorem C5_trim_pad {s c st z k ws wc wst wz wk : String}
    (p1 : padsTo s ws) (p2 : padsTo c wc) (p3 : padsTo st wst)
    (p4 : padsTo z wz) (p5 : padsTo k wk) :
    format_address ws wc wst wz wk = format_address s c st z k := by
  obtain ⟨e1, q1⟩ := padsTo_strip_eq p1
  obtain ⟨e2, q2⟩ := padsTo_strip_eq p2
  obtain ⟨e3, q3⟩ := padsTo_strip_eq p3
  obtain ⟨e4, q4⟩ := padsTo_strip_eq p4
  obtain ⟨e5, q5⟩ := padsTo_strip_eq p5
  exact format_address_congr e1 q1 e2 q2 e3 q3 e4 q4 e5 q5

theorem C5_trim_pad_witness :
    format_address " 1 Main " "Paris" "" " 75001 " "US" =
      format_address "1 Main" "Paris" "" "75001" "US" :=
  C5_trim_pad
    (Or.inr ⟨by decide, by decide, " ", " ", by decide, by decide, by decide⟩)
    (Or.inl rfl) (Or.inl rfl)
    (Or.inr ⟨by decide, by decide, " ", " ", by decide, by decide, by decide⟩)
    (Or.inl rfl)

theorem okField_filter_eq {v : String} (h : okField v) :
    (if v ≠ "" then [pyStrip v] else []) =
    List.filter (fun x => x != "") [pyStrip v] := by
  rw [okField_part_eq h]
  by_cases hx : pyStrip v = ""
  · simp [hx, List.filter_cons]
  · have hb : (pyStrip v != "") = true := bne_iff_ne.mpr hx
    simp [hx, List.filter_cons, hb]

/-- C3 counterexample: with city=" " and state=" " (whitespace-only,
hence truthy in Python), line B receives two empty elements, and the
output line is ", , 62704" — empty elements and a doubled ", "
separator. -/
theorem C3_counterexample :
    "" ∈ lineBParts " " " " "62704" ∧
    format_address "" " " " " "62704" "" = ", , 62704" := by
  refine ⟨by decide, by decide⟩

/-- C3 (amended): when none of city, state, zip_code is a
whitespace-only non-empty string, line B consists exactly of the
non-empty trimmed values among them in order — each empty field is
omitted, no element is empty, so the joined line has no empty elements
and no doubled ", " separators; in particular city="Springfield",
state="", zip_code="62704" gives the line "Springfield, 62704". -/
theorem C3_line_b {c s z : String}
    (hc : okField c) (hs : okField s) (hz : okField z) :
    "" ∉ lineBParts c s z ∧
    lineBParts c s z =
      List.filter (fun x => x != "") [pyStrip c, pyStrip s, pyStrip z] ∧
    format_address "" "Springfield" "" "62704" "" = "Springfield, 62704" := by
  have hfil : lineBParts c s z =
      List.filter (fun x => x != "") [pyStrip c, pyStrip s, pyStrip z] := by
    unfold lineBParts
    rw [okField_filter_eq hc, okField_filter_eq hs, okField_filter_eq hz]
    rw [show [pyStrip c, pyStrip s, pyStrip z] =
      [pyStrip c] ++ [pyStrip s] ++ [pyStrip z] from rfl]
    rw [List.filter_append, List.filter_append]
  refine ⟨?_, hfil, by decide⟩
  rw [hfil]
  intro hmem
  have hp := List.of_mem_filter hmem
  simp at hp

theorem C3_line_b_witness :
    "" ∉ lineBParts "Springfield" "" "62704" ∧
    lineBParts "Springfield" "" "62704" =
      List.filter (fun x => x != "")
        [pyStrip "Springfield", pyStrip "", pyStrip "62704"] ∧
    format_address "" "Springfield" "" "62704" "" = "Springfield, 62704" :=
  C3_line_b (by decide) (by decide) (by decide)

theorem count_stripList_le (c : Char) (l : List Char) :
    (stripList l).count c ≤ l.count c := by
  unfold stripList
  rw [List.count_reverse]
  calc ((l.dropWhile pyIsSpace).reverse.dropWhile pyIsSpace).count c
      ≤ (l.dropWhile pyIsSpace).reverse.count c :=
        (List.dropWhile_sublist pyIsSpace).count_le c
    _ = (l.dropWhile pyIsSpace).count c := List.count_reverse c _
    _ ≤ l.count c := (List.dropWhile_sublist pyIsSpace).count_le c

theorem countNewlines_pyStrip_le (s : String) :
    countNewlines (pyStrip s) ≤ countNewlines s :=
  count_stripList_le '\n' s.data

theorem count_pyJoin (ch : Char) (sep : String) (l : List String)
    (h : ∀ x ∈ l, x.data.count ch = 0) :
    (pyJoin sep l).data.count ch = (l.length - 1) * sep.data.count ch := by
  induction l with
  | nil => simp [pyJoin]
  | cons x xs ih =>
      cases xs with
      | nil =>
          have hx := h x (List.mem_cons_self x [])
          simp [pyJoin, hx]
      | cons y ys =>
          have hx := h x (List.mem_cons_self x (y :: ys))
          have hrest : ∀ a ∈ y :: ys, a.data.count ch = 0 :=
            fun a ha => h a (List.mem_cons_of_mem x ha)
          have hstep : pyJoin sep (x :: y :: ys) = x ++ sep ++ pyJoin sep (y :: ys) := rfl
          rw [hstep, String.data_append, String.data_append, List.count_append,
            List.count_append, hx, ih hrest]
          simp [List.length_cons]
          ring

theorem forall_mem_ite_singleton {P : String → Prop} {cond : Prop}
    [Decidable cond] {v : String} (hp : P v) :
    ∀ x ∈ (if cond then [v] else []), P x := by
  intro x hx
  by_cases h : cond
  · rw [if_pos h] at hx
    simp at hx
    rw [hx]
    exact hp
  · rw [if_neg h] at hx
    simp at hx

theorem countNewlines_addressParts {s c st z k : String}
    (h1 : countNewlines s = 0) (h2 : countNewlines c = 0)
    (h3 : countNewlines st = 0) (h4 : countNewlines z = 0)
    (h5 : countNewlines k = 0) :
    ∀ x ∈ addressParts s c st z k, countNewlines x = 0 := by
  have hstrip : ∀ v : String, countNewlines v = 0 → countNewlines (pyStrip v) = 0 := by
    intro v hv
    have := countNewlines_pyStrip_le v
    omega
  have hlineB : ∀ x ∈ lineBParts c st z, countNewlines x = 0 := by
    unfold lineBParts
    refine List.forall_mem_append.mpr ⟨List.forall_mem_append.mpr ⟨?_, ?_⟩, ?_⟩
    · exact forall_mem_ite_singleton (hstrip c h2)
    · exact forall_mem_ite_singleton (hstrip st h3)
    · exact forall_mem_ite_singleton (hstrip z h4)
  have hjoin : countNewlines (pyJoin ", " (lineBParts c st z)) = 0 := by
    have hc := count_pyJoin '\n' ", " (lineBParts c st z) (fun x hx => hlineB x hx)
    have hsep : (", " : String).data.count '\n' = 0 := by decide
    unfold countNewlines
    rw [hc, hsep, Nat.mul_zero]
  unfold addressParts
  refine List.forall_mem_append.mpr ⟨List.forall_mem_append.mpr ⟨?_, ?_⟩, ?_⟩
  · exact forall_mem_ite_singleton (hstrip s h1)
  · exact forall_mem_ite_singleton hjoin
  · exact forall_mem_ite_singleton (hstrip k h5)

theorem addressParts_length_le (s c st z k : String) :
    (addressParts s c st z k).length ≤ 3 := by
  unfold addressParts
  rw [List.length_append, List.length_append]
  have hle : ∀ (cond : Prop) (inst : Decidable cond) (v : String),
      (if cond then [v] else []).length ≤ 1 := by
    intro cond inst v
    split <;> simp
  have g1 := hle (s ≠ "") inferInstance (pyStrip s)
  have g2 := hle (lineBParts c st z ≠ []) inferInstance (pyJoin ", " (lineBParts c st z))
  have g3 := hle (k ≠ "") inferInstance (pyStrip k)
  omega

/-- C4 counterexample: a field may itself contain newline characters,
which survive into the output: with street="a\nb\nc\nd" and all other
fields empty, the output is "a\nb\nc\nd", which has 4
newline-separated segments, more than the claimed 3. -/
theorem C4_counterexample :
    format_address "a\nb\nc\nd" "" "" "" "" = "a\nb\nc\nd" ∧
    countNewlines (format_address "a\nb\nc\nd" "" "" "" "") + 1 = 4 := by
  refine ⟨by decide, by decide⟩

/-- C4 (amended): when no field value itself contains a newline
character, the output of `format_address` has at most 3
newline-separated segments (its newline count plus one is at most 3). -/
theorem C4_at_most_three_lines {s c st z k : String}
    (h1 : countNewlines s = 0) (h2 : countNewlines c = 0)
    (h3 : countNewlines st = 0) (h4 : countNewlines z = 0)
    (h5 : countNewlines k = 0) :
    countNewlines (format_address s c st z k) + 1 ≤ 3 := by
  unfold format_address
  by_cases hP : addressParts s c st z k = []
  · rw [if_neg (fun h => h hP)]
    decide
  · rw [if_pos hP]
    have hall := countNewlines_addressParts h1 h2 h3 h4 h5
    have hcount := count_pyJoin '\n' "\n" (addressParts s c st z k)
      (fun x hx => hall x hx)
    have hlen := addressParts_length_le s c st z k
    have hsep : ("\n" : String).data.count '\n' = 1 := by decide
    unfold countNewlines
    rw [hcount, hsep]
    omega

theorem C4_witness :
    countNewlines (format_address "123 Main St" "Springfield" "IL" "62704" "USA") + 1 ≤ 3 :=
  C4_at_most_three_lines (by decide) (by decide) (by decide) (by decide) (by decide)

theorem takeWhile_all {p : Char → Bool} {a : List Char}
    (h : ∀ ch ∈ a, p ch = true) : a.takeWhile p = a := by
  induction a with
  | nil => rfl
  | cons x xs ih =>
      have hx := h x (List.mem_cons_self x xs)
      have hxs : ∀ ch ∈ xs, p ch = true := fun ch hc => h ch (List.mem_cons_of_mem x hc)
      simp [List.takeWhile_cons, hx, ih hxs]

theorem takeWhile_all_append {p : Char → Bool} {a : List Char}
    (h : ∀ ch ∈ a, p ch = true) (b : List Char) :
    (a ++ b).takeWhile p = a ++ b.takeWhile p := by
  induction a with
  | nil => rfl
  | cons x xs ih =>
      have hx := h x (List.mem_cons_self x xs)
      have hxs : ∀ ch ∈ xs, p ch = true := fun ch hc => h ch (List.mem_cons_of_mem x hc)
      simp [List.takeWhile_cons, hx, ih hxs]

theorem firstLine_append_newline {x : String} (t : String)
    (hx : ∀ ch ∈ x.data, (ch != '\n') = true) :
    firstLine (x ++ "\n" ++ t) = x := by
  unfold firstLine
  have hdata : (x ++ "\n" ++ t).data = x.data ++ ('\n' :: t.data) := by
    rw [String.data_append, String.data_append, List.append_assoc]
    have hnl : ("\n" : String).data = ['\n'] := rfl
    rw [hnl]
    rfl
  rw [hdata, takeWhile_all_append hx]
  have hstop : List.takeWhile (fun ch => ch != '\n') ('\n' :: t.data) = [] := by
    simp [List.takeWhile_cons]
  rw [hstop, List.append_nil]

theorem firstLine_pyJoin_cons (x : String) (rest : List String)
    (hx : ∀ ch ∈ x.data, (ch != '\n') = true) :
    firstLine (pyJoin "\n" (x :: rest)) = x := by
  cases rest with
  | nil =>
      have hj : pyJoin "\n" [x] = x := rfl
      rw [hj]
      unfold firstLine
      rw [takeWhile_all hx]
  | cons y ys =>
      have hj : pyJoin "\n" (x :: y :: ys) = x ++ "\n" ++ pyJoin "\n" (y :: ys) := rfl
      rw [hj]
      exact firstLine_append_newline _ hx

/-- C6: surrounding whitespace in a field is stripped before use — for
street=" 123 Main St " and arbitrary values of the other four fields,
the first line of the output is exactly "123 Main St". -/
theorem C6_street_trimmed (c s z k : String) :
    firstLine (format_address " 123 Main St " c s z k) = "123 Main St" := by
  have hlit : (" 123 Main St " : String) ≠ "" := by decide
  have hstrip : pyStrip " 123 Main St " = "123 Main St" := by decide
  unfold format_address addressParts
  rw [if_pos hlit, hstrip, List.singleton_append, List.cons_append]
  rw [if_pos (List.cons_ne_nil _ _)]
  exact firstLine_pyJoin_cons _ _ (by decide)

/-- C10: a whitespace-only field is truthy in Python, so it is counted
as present and contributes its trimmed (empty) value: with
street="   " and all other fields empty, `format_address` returns the
empty string, not `"No address provided."`. -/
theorem C10_whitespace_only_street :
    format_address "   " "" "" "" "" = "" ∧
    format_address "   " "" "" "" "" ≠ "No address provided." := by
  constructor
  · decide
  · decide

end WxO
